import Mathlib

/-!
Verification of the headless-WordPress React front-end
(`react-wordpress`): a shallow embedding of

* the caching fetch hook `useFetch` (src/src/hooks/useWordPress.ts),
* the recursive ACF field renderer `ACFValue` / `ACFRenderer`,
* the REST client helpers `buildParams`, `parsePost`, `parsePage`,
  `parseImage`, `parseTerms`, `getPostBySlug`, `getPageBySlug`
  (src/lib/wordpress.ts),
* the hash router of `App` (src/App.tsx), and
* the `Pagination` widget (src/components/UI.tsx),

followed by theorems settling the frozen claims about them.
-/

/-! ## JavaScript-like values

JSON/JS runtime values as they flow through the untyped parts of the
code (`unknown` fields, cache entries, raw REST payloads).  Numbers are
modelled as integers (no float or NaN arises in the verified claims);
objects are association lists of string keys.
-/

inductive FieldValue where
  | null : FieldValue
  | undefined : FieldValue
  | boolean : Bool → FieldValue
  | number : Int → FieldValue
  | str : String → FieldValue
  | arr : List FieldValue → FieldValue
  | obj : List (String × FieldValue) → FieldValue

/-- JS truthiness (`if (v)`).  `null`, `undefined`, `false`, `0` and
`""` are falsy; arrays and objects are always truthy. -/
def FieldValue.truthy : FieldValue → Bool
  | .null => false
  | .undefined => false
  | .boolean b => b
  | .number n => n != 0
  | .str s => s != ""
  | .arr _ => true
  | .obj _ => true

/-- JS nullish test (`v === null || v === undefined`), as used by the
`??` operator and optional chaining. -/
def FieldValue.isNullish : FieldValue → Bool
  | .null => true
  | .undefined => true
  | _ => false

/-! ## The caching fetch hook (useWordPress.ts, `useFetch`)

`useFetch` keeps a `FetchState` in React state and a module-level
`memoryCache : Map<string, {data, updatedAt}>`.  Each `setState` call
of the hook is embedded as a pure state transformer, and one whole run
of `load` as `loadRun`, which also reports whether the fetcher was
invoked.
-/

inductive FetchStatus where
  | idle : FetchStatus
  | loading : FetchStatus
  | success : FetchStatus
  | error : FetchStatus
deriving DecidableEq, Repr

structure FetchState where
  status : FetchStatus
  data : FieldValue
  error : Option String
  isFetching : Bool

structure CacheEntry where
  data : FieldValue
  updatedAt : Int

abbrev Cache := String → Option CacheEntry

/-- `staleMs` default: `const DEFAULT_STALE_MS = 60_000`. -/
def DEFAULT_STALE_MS : Int := 60000

/-- Truthiness of the `cacheKey` option (`string | undefined`): the
guards `if (!cacheKey)` / `if (cacheKey)` treat an empty string like an
absent key. -/
def keyGiven : Option String → Bool
  | none => false
  | some k => k != ""

/-- `initialCached` memo:
`if (!cacheKey) return null; const cached = memoryCache.get(cacheKey);
return cached ? cached.data : null`. -/
def initialCached (cacheKey : Option String) (cache : Cache) : FieldValue :=
  match cacheKey with
  | some k =>
    if k != "" then
      match cache k with
      | some e => e.data
      | none => .null
    else .null
  | none => .null

/-- The hook's `useState` initializer:
`status: initialCached ? "success" : "loading", data: initialCached,
error: null, isFetching: !initialCached`. -/
def initialState (cacheKey : Option String) (cache : Cache) : FetchState :=
  let c := initialCached cacheKey cache
  { status := if c.truthy then .success else .loading
    data := c
    error := none
    isFetching := !c.truthy }

/-- The `setState` performed on a fresh cache hit inside `load`:
`{status: "success", data: cached.data, error: null, isFetching: false}`. -/
def cacheHitState (e : CacheEntry) : FetchState :=
  { status := .success, data := e.data, error := none, isFetching := false }

/-- The `setState` entering a (re)fetch:
`prev => ({status: prev.data ? "success" : "loading", data: prev.data,
error: null, isFetching: true})`. -/
def loadStart (prev : FetchState) : FetchState :=
  { status := if prev.data.truthy then .success else .loading
    data := prev.data
    error := none
    isFetching := true }

/-- The `setState` after the fetcher resolves:
`{status: "success", data, error: null, isFetching: false}`. -/
def loadSuccess (v : FieldValue) : FetchState :=
  { status := .success, data := v, error := none, isFetching := false }

/-- The `setState` in the `catch` branch:
`prev => ({status: prev.data ? "success" : "error", data: prev.data,
error: prev.data ? null : e.message, isFetching: false})`. -/
def loadFailure (prev : FetchState) (msg : String) : FetchState :=
  { status := if prev.data.truthy then .success else .error
    data := prev.data
    error := if prev.data.truthy then none else some msg
    isFetching := false }

/-- The freshness check of `load`:
`if (!force && cacheKey) { const cached = memoryCache.get(cacheKey);
if (cached && now - cached.updatedAt < staleMs) ... }`.
Returns the entry served from cache, if any. -/
def freshHit (cacheKey : Option String) (staleMs now : Int) (cache : Cache) :
    Option CacheEntry :=
  match cacheKey with
  | some k =>
    if k != "" then
      match cache k with
      | some e => if now - e.updatedAt < staleMs then some e else none
      | none => none
    else none
  | none => none

structure LoadResult where
  state : FetchState
  cache : Cache
  fetched : Bool

/-- One complete run of `load(force)`.  `result` is the outcome of the
awaited `fetcher()` call (only consulted when the fetcher is actually
invoked) and `fetchDone` the `Date.now()` at which it settled.
`fetched` records whether the fetcher was invoked. -/
def loadRun (force : Bool) (cacheKey : Option String) (staleMs now : Int)
    (cache : Cache) (prev : FetchState)
    (result : Except String FieldValue) (fetchDone : Int) : LoadResult :=
  match (if force then none else freshHit cacheKey staleMs now cache) with
  | some e => { state := cacheHitState e, cache := cache, fetched := false }
  | none =>
    let started := loadStart prev
    match result with
    | .ok v =>
      { state := loadSuccess v
        cache :=
          match cacheKey with
          | some k =>
            if k != "" then
              fun q => if q = k then some { data := v, updatedAt := fetchDone } else cache q
            else cache
          | none => cache
        fetched := true }
    | .error msg =>
      { state := loadFailure started msg, cache := cache, fetched := true }

/-- `refetch: () => load(true)`. -/
def refetchRun (cacheKey : Option String) (staleMs now : Int)
    (cache : Cache) (prev : FetchState)
    (result : Except String FieldValue) (fetchDone : Int) : LoadResult :=
  loadRun true cacheKey staleMs now cache prev result fetchDone

/-- Every fetcher passed to `useFetch` in this repository resolves with
an object, an array, or `null` (posts/pages records, ACF records, term
arrays, or `null` from `getPostBySlug`/`getPageBySlug`), so the `data`
field only ever holds `null` or a truthy value. -/
def DataOk (v : FieldValue) : Prop := v = .null ∨ v.truthy = true

def CacheOk (cache : Cache) : Prop :=
  ∀ k e, cache k = some e → DataOk e.data

/-- States reachable by the cached `useFetch` state machine: the
`useState` initializer and the four `setState` transformers of `load`,
with fetch results and cache entries ranging over the value domain of
the repository's fetchers (`DataOk`). -/
inductive Reachable : FetchState → Prop where
  | init : ∀ cacheKey cache, CacheOk cache → Reachable (initialState cacheKey cache)
  | hit : ∀ e : CacheEntry, DataOk e.data → Reachable (cacheHitState e)
  | start : ∀ s, Reachable s → Reachable (loadStart s)
  | succeed : ∀ v, DataOk v → Reachable (loadSuccess v)
  | fail : ∀ s msg, Reachable s → Reachable (loadFailure s msg)

/-- The status/data/error invariant of claim C4. -/
def StateInv (s : FetchState) : Prop :=
  (s.status = .loading ∨ s.status = .success ∨ s.status = .error) ∧
  (s.status = .error → s.data = .null ∧ s.error ≠ none) ∧
  (s.status = .success → s.error = none) ∧
  (s.status = .loading → s.data = .null ∧ s.error = none)

/-! ## The ACF field renderer (ACFRenderer.tsx)

`ACFValue` dispatches on the runtime shape of a field value and
`ACFRenderer` renders an object of fields, filtering blank values;
the two are mutually recursive (repeater rows and groups).  The
produced `Rendered` tree records which JSX branch was taken together
with the data placed in it (CSS and label presentation is not
modelled; `fieldsBlock` keeps the raw field keys).
-/

/-- Membership test `"k" in v` for an object's own keys. -/
def hasKey (fs : List (String × FieldValue)) (k : String) : Bool :=
  fs.any (fun kv => kv.1 == k)

/-- JS property read `v[k]` on an object: first binding, `undefined`
when absent. -/
def getKey (fs : List (String × FieldValue)) (k : String) : FieldValue :=
  match fs.find? (fun kv => kv.1 == k) with
  | some kv => kv.2
  | none => .undefined

/-- The blank-value test used both by `ACFValue`'s first guard and by
`ACFRenderer`'s entry filter:
`value === null || value === undefined || value === ""` (strict, so
`0` and `false` are not blank). -/
def isBlankValue : FieldValue → Bool
  | .null => true
  | .undefined => true
  | .str s => s == ""
  | _ => false

/-- `typeof value[0] === "string" || typeof value[0] === "number"`. -/
def isStrOrNum : FieldValue → Bool
  | .str _ => true
  | .number _ => true
  | _ => false

mutual

/-- JS `String(v)` on the values that occur as field data. -/
def toDisplayString : FieldValue → String
  | .null => "null"
  | .undefined => "undefined"
  | .boolean b => if b then "true" else "false"
  | .number n => toString n
  | .str s => s
  | .arr xs => arrayJoin xs
  | .obj _ => "[object Object]"

/-- JS `Array.prototype.toString` = `join(",")`. -/
def arrayJoin : List FieldValue → String
  | [] => ""
  | [x] => arrayElemString x
  | x :: y :: xs => arrayElemString x ++ "," ++ arrayJoin (y :: xs)

/-- Inside `join`, `null` and `undefined` elements print as `""`. -/
def arrayElemString : FieldValue → String
  | .null => ""
  | .undefined => ""
  | v => toDisplayString v

end

/-- `Object.entries(row)` as used on repeater rows and groups: the
bindings of an object.  (`Object.entries` yields `[]` on numbers and
booleans, index-keyed entries on arrays and strings, and throws on
`null`/`undefined`; ACF repeater rows are always objects, so
non-object rows are modelled as having no entries.) -/
def entriesOf : FieldValue → List (String × FieldValue)
  | .obj fs => fs
  | _ => []

/-- `[a-z]` under the `/i` flag. -/
def isTagLetter (c : Char) : Bool :=
  (('a' ≤ c) && (c ≤ 'z')) || (('A' ≤ c) && (c ≤ 'Z'))

/-- Matching of `/<[a-z][\s\S]*>/i` against a character list: some
`<` immediately followed by an ASCII letter with a later `>`. -/
def hasTagPattern : List Char → Bool
  | [] => false
  | c :: rest =>
    if c = '<' then
      match rest with
      | [] => false
      | d :: rest2 => (isTagLetter d && rest2.contains '>') || hasTagPattern rest
    else hasTagPattern rest

/-- The WYSIWYG test `/<[a-z][\s\S]*>/i.test(value)`. -/
def containsHtmlTag (s : String) : Bool :=
  hasTagPattern s.data

/-- JS `value.startsWith(p)`. -/
def strStartsWith (s p : String) : Bool :=
  p.data.isPrefixOf s.data

/-- One JSX fragment produced by the renderer, by branch. -/
inductive Rendered where
  | nothing : Rendered
  | image : FieldValue → FieldValue → FieldValue → FieldValue → Rendered
  | relationLink : FieldValue → FieldValue → Rendered
  | stringList : List String → Rendered
  | rows : List Rendered → Rendered
  | rawHtml : String → Rendered
  | link : String → Rendered
  | badge : Bool → Rendered
  | fieldsBlock : List (String × Rendered) → Rendered
  | text : String → Rendered

/-- `isACFImage`: `typeof v === "object" && v !== null && "url" in v &&
"alt" in v`.  (Arrays are `typeof "object"` too, but JSON arrays never
carry the string keys `url`/`alt`, so only objects can pass.) -/
def isACFImage : FieldValue → Bool
  | .obj fs => hasKey fs "url" && hasKey fs "alt"
  | _ => false

/-- `isACFPost`: `typeof v === "object" && v !== null && "ID" in v &&
"post_title" in v`. -/
def isACFPost : FieldValue → Bool
  | .obj fs => hasKey fs "ID" && hasKey fs "post_title"
  | _ => false

theorem sizeOf_entriesOf_le (v : FieldValue) : sizeOf (entriesOf v) ≤ sizeOf v := by
  cases v <;> simp [entriesOf]

mutual

/-- The `ACFValue` component: the source's if-chain of shape guards.
Each guard selects on a disjoint runtime type (`typeof`/`Array.isArray`
tests), so the chain is written as a match on the value's constructor
with the object-key guards kept in source order. -/
def ACFValue : FieldValue → Rendered
  | .null => .nothing
  | .undefined => .nothing
  | .boolean b => .badge b
  | .number n => .text (toDisplayString (.number n))
  | .str s =>
    if s == "" then .nothing
    else if containsHtmlTag s then .rawHtml s
    else if strStartsWith s "http" then .link s
    else .text s
  | .arr xs =>
    match xs with
    | [] => .nothing
    | x :: rest =>
      if isStrOrNum x then .stringList ((x :: rest).map toDisplayString)
      else .rows ((x :: rest).attach.map (fun r => ACFRenderer (entriesOf r.1)))
  | .obj fs =>
    if hasKey fs "url" && hasKey fs "alt" then
      .image (getKey fs "url") (getKey fs "alt") (getKey fs "width") (getKey fs "height")
    else if hasKey fs "ID" && hasKey fs "post_title" then
      .relationLink (getKey fs "permalink") (getKey fs "post_title")
    else ACFRenderer fs
termination_by v => sizeOf v
decreasing_by
  · have h1 : sizeOf r.1 < sizeOf (x :: rest) := List.sizeOf_lt_of_mem r.2
    have h2 := sizeOf_entriesOf_le r.1
    simp only [FieldValue.arr.sizeOf_spec]
    omega
  · simp only [FieldValue.obj.sizeOf_spec]
    omega

/-- The `ACFRenderer` component: filters blank entries, renders nothing
when none remain, and otherwise renders each field through `ACFValue`. -/
def ACFRenderer (fields : List (String × FieldValue)) : Rendered :=
  let entries := fields.filter (fun kv => !(isBlankValue kv.2))
  if entries.isEmpty then .nothing
  else .fieldsBlock (entries.attach.map (fun kv => (kv.1.1, ACFValue kv.1.2)))
termination_by sizeOf fields
decreasing_by
  obtain ⟨⟨a, b⟩, hmem⟩ := kv
  have h1 : sizeOf (a, b) < sizeOf fields :=
    List.sizeOf_lt_of_mem (List.mem_of_mem_filter hmem)
  simp only [Prod.mk.sizeOf_spec] at h1
  simp only []
  omega

end

/-- `ACFRenderer` with the membership-annotated `attach` map replaced by
a plain `map`. -/
theorem ACFRenderer_eq (fields : List (String × FieldValue)) :
    ACFRenderer fields =
      (if (fields.filter (fun kv => !(isBlankValue kv.2))).isEmpty then .nothing
       else .fieldsBlock ((fields.filter (fun kv => !(isBlankValue kv.2))).map
         (fun kv => (kv.1, ACFValue kv.2)))) := by
  rw [ACFRenderer]
  simp only [List.map_attach, List.pmap_eq_map]

/-- The repeater-rows branch of `ACFValue`, with a plain `map`. -/
theorem ACFValue_arr_rows (x : FieldValue) (rest : List FieldValue)
    (h : isStrOrNum x = false) :
    ACFValue (.arr (x :: rest)) =
      .rows ((x :: rest).map (fun r => ACFRenderer (entriesOf r))) := by
  rw [ACFValue]
  simp only [h, List.map_attach, List.pmap_eq_map]
  simp

/-! ## The REST client (wordpress.ts)

`buildParams` serializes a `QueryParams` record into the query string;
it is embedded as the ordered list of key/value pairs set on the
`URLSearchParams` (each key is set at most once).  The `parse*`
functions turn raw JSON payloads into typed records; fields that the
source merely casts (`as number`) are kept as raw `FieldValue`s.
-/

structure QueryParams where
  page : Option Int := none
  perPage : Option Int := none
  search : Option String := none
  categories : Option (List Int) := none
  tags : Option (List Int) := none
  slug : Option String := none
  orderby : Option String := none
  order : Option String := none
  status : Option String := none
  embed : Option Bool := none

/-- Truthiness of an optional number (`if (params.page)`): defined and
non-zero. -/
def numFieldTruthy : Option Int → Bool
  | some n => n != 0
  | none => false

/-- Truthiness of an optional string (`if (params.search)`): defined and
non-empty. -/
def strFieldTruthy : Option String → Bool
  | some s => s != ""
  | none => false

/-- `params.categories?.length` as a truthy guard: defined and
non-empty. -/
def listFieldTruthy : Option (List Int) → Bool
  | some l => !l.isEmpty
  | none => false

/-- `arr.join(",")` on a number array. -/
def joinComma (l : List Int) : String :=
  String.intercalate "," (l.map toString)

/-- One conditional `p.set(key, val)` of `buildParams`. -/
def entryIf (b : Bool) (key val : String) : List (String × String) :=
  if b then [(key, val)] else []

/-- Rendering of an optional number for `String(...)` (only consulted
under a truthy guard, where the field is present). -/
def optNumStr : Option Int → String
  | some n => toString n
  | none => ""

def optStrVal : Option String → String
  | some s => s
  | none => ""

def optListJoin : Option (List Int) → String
  | some l => joinComma l
  | none => ""

/-- `buildParams`: each field is serialized exactly when its guard is
truthy; `_embed` is set to `"1"` unless `embed` is strictly `false`. -/
def buildParams (p : QueryParams) : List (String × String) :=
  entryIf (numFieldTruthy p.page) "page" (optNumStr p.page) ++
  entryIf (numFieldTruthy p.perPage) "per_page" (optNumStr p.perPage) ++
  entryIf (strFieldTruthy p.search) "search" (optStrVal p.search) ++
  entryIf (listFieldTruthy p.categories) "categories" (optListJoin p.categories) ++
  entryIf (listFieldTruthy p.tags) "tags" (optListJoin p.tags) ++
  entryIf (strFieldTruthy p.slug) "slug" (optStrVal p.slug) ++
  entryIf (strFieldTruthy p.orderby) "orderby" (optStrVal p.orderby) ++
  entryIf (strFieldTruthy p.order) "order" (optStrVal p.order) ++
  entryIf (strFieldTruthy p.status) "status" (optStrVal p.status) ++
  entryIf (p.embed != some false) "_embed" "1"

/-- Whether a query key occurs among the serialized parameters. -/
def hasParamKey (q : List (String × String)) (k : String) : Bool :=
  q.any (fun kv => kv.1 == k)

/-- JS property read `v.k` / optional chain `v?.k`: bindings of an
object, `undefined` otherwise (optional chaining yields `undefined` on
nullish receivers; property access on primitives yields `undefined` for
the keys read here). -/
def jsGet (v : FieldValue) (k : String) : FieldValue :=
  match v with
  | .obj fs => getKey fs k
  | _ => .undefined

/-- The `??` operator: `v ?? d`. -/
def orDefault (v d : FieldValue) : FieldValue :=
  if v.isNullish then d else v

/-- `v?.[0]`: first element of an array, the `"0"` binding of an
object, `undefined` otherwise. -/
def jsIndex0 : FieldValue → FieldValue
  | .arr (x :: _) => x
  | .arr [] => .undefined
  | .obj fs => getKey fs "0"
  | _ => .undefined

/-- Strict equality `v === s` against a string literal. -/
def strictEqStr (v : FieldValue) (s : String) : Bool :=
  match v with
  | .str t => t == s
  | _ => false

/-- The element list of a value used as an array (`.map`, `.find`).
(Calling `.map`/`.find` on a non-array would throw in JS; the WordPress
API returns arrays in these positions.) -/
def jsArrElems : FieldValue → List FieldValue
  | .arr xs => xs
  | _ => []

structure WPImage where
  id : FieldValue
  url : FieldValue
  alt : FieldValue
  width : FieldValue
  height : FieldValue

structure WPTerm where
  id : FieldValue
  name : FieldValue
  slug : FieldValue

/-- `parseImage`: reads the embedded featured media, returns `null`
when it is falsy, and applies the per-field fallbacks. -/
def parseImage (raw : FieldValue) : Option WPImage :=
  let media := jsGet (jsGet raw "_embedded") "wp:featuredmedia"
  let img := orDefault (jsIndex0 media) media
  if !img.truthy then none
  else some
    { id := jsGet img "id"
      url := orDefault (jsGet img "source_url")
        (orDefault (jsGet (jsGet img "guid") "rendered") (.str ""))
      alt := orDefault (jsGet img "alt_text") (.str "")
      width := orDefault (jsGet (jsGet img "media_details") "width") (.number 0)
      height := orDefault (jsGet (jsGet img "media_details") "height") (.number 0) }

/-- `parseTerms`: finds the term group of the requested taxonomy in
`_embedded["wp:term"]` (defaulting to `[]`), and maps it to `WPTerm`s. -/
def parseTerms (raw : FieldValue) (taxonomy : String) : List WPTerm :=
  let terms := orDefault (jsGet (jsGet raw "_embedded") "wp:term") (.arr [])
  let group := (jsArrElems terms).find?
    (fun t => strictEqStr (jsGet (jsIndex0 t) "taxonomy") taxonomy)
  let groupElems :=
    match group with
    | some g => jsArrElems g
    | none => []
  groupElems.map (fun t =>
    { id := jsGet t "id", name := jsGet t "name", slug := jsGet t "slug" })

structure WPPost where
  id : FieldValue
  slug : FieldValue
  title : FieldValue
  excerpt : FieldValue
  content : FieldValue
  date : FieldValue
  modified : FieldValue
  featuredImage : Option WPImage
  categories : List WPTerm
  tags : List WPTerm
  acf : FieldValue

/-- `parsePost`. -/
def parsePost (raw : FieldValue) : WPPost :=
  { id := jsGet raw "id"
    slug := jsGet raw "slug"
    title := orDefault (jsGet (jsGet raw "title") "rendered") (.str "")
    excerpt := orDefault (jsGet (jsGet raw "excerpt") "rendered") (.str "")
    content := orDefault (jsGet (jsGet raw "content") "rendered") (.str "")
    date := jsGet raw "date"
    modified := jsGet raw "modified"
    featuredImage := parseImage raw
    categories := parseTerms raw "category"
    tags := parseTerms raw "post_tag"
    acf := orDefault (jsGet raw "acf") (.obj []) }

structure WPPage where
  id : FieldValue
  slug : FieldValue
  title : FieldValue
  content : FieldValue
  acf : FieldValue

/-- `parsePage`. -/
def parsePage (raw : FieldValue) : WPPage :=
  { id := jsGet raw "id"
    slug := jsGet raw "slug"
    title := orDefault (jsGet (jsGet raw "title") "rendered") (.str "")
    content := orDefault (jsGet (jsGet raw "content") "rendered") (.str "")
    acf := orDefault (jsGet raw "acf") (.obj []) }

/-! ## HTTP wrappers

The network is abstracted as a `respond` function from the serialized
query parameters to an `HttpResponse`; the `X-WP-Total` headers are
modelled as the integers `Number(...)` produces (0 when absent).
Rejected promises become `Except.error` carrying the thrown message
(the message of `getPages`' underlying `fetcher` also interpolates the
request URL, which is not modelled).
-/

structure HttpResponse where
  ok : Bool
  status : Int
  totalHeader : Option Int
  totalPagesHeader : Option Int
  body : FieldValue

structure PostsResult where
  posts : List WPPost
  total : Int
  totalPages : Int

/-- `getPosts`: throws `WP API ${status}` when the response is not ok,
otherwise parses the body array and the pagination headers. -/
def getPosts (params : QueryParams)
    (respond : List (String × String) → HttpResponse) :
    Except String PostsResult :=
  let res := respond (buildParams params)
  if !res.ok then .error ("WP API " ++ toString res.status)
  else .ok
    { posts := (jsArrElems res.body).map parsePost
      total := res.totalHeader.getD 0
      totalPages := res.totalPagesHeader.getD 0 }

/-- `getPostBySlug`: `const {posts} = await getPosts({slug, perPage: 1});
return posts[0] ?? null`. -/
def getPostBySlug (slug : String)
    (respond : List (String × String) → HttpResponse) :
    Except String (Option WPPost) :=
  match getPosts { slug := some slug, perPage := some 1 } respond with
  | .error e => .error e
  | .ok r => .ok r.posts.head?

/-- `getPages`: `fetcher` throws `WP API error ${status} – ${url}` when
the response is not ok, otherwise the body array is parsed. -/
def getPages (params : QueryParams)
    (respond : List (String × String) → HttpResponse) :
    Except String (List WPPage) :=
  let res := respond (buildParams params)
  if !res.ok then .error ("WP API error " ++ toString res.status)
  else .ok ((jsArrElems res.body).map parsePage)

/-- `getPageBySlug`: `const pages = await getPages({slug, perPage: 1});
return pages[0] ?? null`. -/
def getPageBySlug (slug : String)
    (respond : List (String × String) → HttpResponse) :
    Except String (Option WPPage) :=
  match getPages { slug := some slug, perPage := some 1 } respond with
  | .error e => .error e
  | .ok pages => .ok pages.head?

/-! ## The hash router (App.tsx)

`App` dispatches on the current hash string.  JS
`route.replace(p, "")` with a string pattern removes only the first
occurrence of `p`; it is embedded as `removeFirst`.
-/

inductive View where
  | home : View
  | blog : View
  | post : String → View
  | page : String → View
  | errorBanner : String → View
deriving DecidableEq, Repr

/-- Removal of the first occurrence of `pat` (JS
`s.replace(pat, "")` with a string pattern). -/
def removeFirstChars (pat : List Char) : List Char → List Char
  | [] => []
  | c :: rest =>
    if pat.isPrefixOf (c :: rest) then (c :: rest).drop pat.length
    else c :: removeFirstChars pat rest

def removeFirst (s pat : String) : String :=
  ⟨removeFirstChars pat.data s.data⟩

/-- The route dispatch of `App`. -/
def routeView (route : String) : View :=
  if route == "#/" || route == "" then .home
  else if route == "#/blog" then .blog
  else if strStartsWith route "#/post/" then .post (removeFirst route "#/post/")
  else if strStartsWith route "#/page/" then .page (removeFirst route "#/page/")
  else .errorBanner "Page non trouvée"

/-! ## Pagination (UI.tsx) -/

structure PaginationView where
  pages : List Int
  prevDisabled : Bool
  nextDisabled : Bool
deriving DecidableEq, Repr

/-- `Pagination`: `null` when `totalPages <= 1`; otherwise the page
buttons `1..totalPages` (`Array.from({length: totalPages}, (_, i) =>
i + 1)`) with the previous/next buttons disabled at the ends. -/
def Pagination (page totalPages : Int) : Option PaginationView :=
  if totalPages ≤ 1 then none
  else some
    { pages := (List.range totalPages.toNat).map (fun (i : Nat) => (i : Int) + 1)
      prevDisabled := page == 1
      nextDisabled := page == totalPages }

/-! ## Claims about the fetch hook -/

theorem dataOk_initialCached (cacheKey : Option String) (cache : Cache)
    (h : CacheOk cache) : DataOk (initialCached cacheKey cache) := by
  unfold initialCached
  cases cacheKey with
  | none => exact Or.inl rfl
  | some k =>
    by_cases hk : (k != "") = true
    · simp only [hk, if_true]
      cases hc : cache k with
      | some e => exact h k e hc
      | none => exact Or.inl rfl
    · simp only [Bool.not_eq_true] at hk
      simp only [hk]
      exact Or.inl rfl

theorem reachable_inv_aux (s : FetchState) (h : Reachable s) :
    DataOk s.data ∧ StateInv s := by
  induction h with
  | init cacheKey cache hcache =>
    have hd := dataOk_initialCached cacheKey cache hcache
    refine ⟨hd, ?_⟩
    rcases hd with hnull | htr
    · simp [initialState, StateInv, hnull, FieldValue.truthy]
    · simp [initialState, StateInv, htr]
  | hit e he =>
    exact ⟨he, by simp [cacheHitState, StateInv]⟩
  | start s hs ih =>
    refine ⟨ih.1, ?_⟩
    rcases ih.1 with hnull | htr
    · simp [loadStart, StateInv, hnull, FieldValue.truthy]
    · simp [loadStart, StateInv, htr]
  | succeed v hv =>
    exact ⟨hv, by simp [loadSuccess, StateInv]⟩
  | fail s msg hs ih =>
    refine ⟨ih.1, ?_⟩
    rcases ih.1 with hnull | htr
    · simp [loadFailure, StateInv, hnull, FieldValue.truthy]
    · simp [loadFailure, StateInv, htr]

/-- C4: every state reachable by the cached useFetch state machine
(initial state, fresh-cache hit, loading transition, fetch success,
fetch failure) satisfies: status is one of loading, success, error;
status = error implies data is null and error is non-null; status =
success implies error is null; status = loading implies data and error
are both null. -/
theorem reachable_state_invariant (s : FetchState) (h : Reachable s) :
    StateInv s :=
  (reachable_inv_aux s h).2

theorem reachable_state_invariant_witness :
    StateInv (initialState none (fun _ => none)) :=
  reachable_state_invariant _
    (Reachable.init none (fun _ => none) (fun _ _ hc => nomatch hc))

/-- A cache holding an entry whose data is `null`, exactly what
`usePost` caches after `getPostBySlug` resolves with `null` for a
non-existent slug. -/
def nullEntryCache : Cache :=
  fun k => if k = "post:missing" then some { data := .null, updatedAt := 0 } else none

/-- C1 counterexample: `post:missing` has an existing cache entry, yet
the initial state is `loading`, not `success`, because the hook tests
the truthiness of the cached data, not the existence of the entry. -/
theorem useFetch_cached_null_not_served :
    nullEntryCache "post:missing" =
      some { data := FieldValue.null, updatedAt := 0 } ∧
    (initialState (some "post:missing") nullEntryCache).status =
      FetchStatus.loading ∧
    (initialState (some "post:missing") nullEntryCache).status ≠
      FetchStatus.success := by
  refine ⟨rfl, rfl, ?_⟩
  decide

/-- C1 (amended): for every nonempty cache key k with an existing entry
whose cached data is truthy, useFetch's initial state serves the cached
data immediately (status success, data = cached value), and when the
entry is stale a subsequent load keeps status success and the previous
data while the fresh fetch is in flight (isFetching true), replacing
the data only when the fetch resolves. -/
theorem useFetch_stale_while_revalidate (k : String) (hk : (k != "") = true)
    (cache : Cache) (e : CacheEntry)
    (hentry : cache k = some e) (htruthy : e.data.truthy = true)
    (staleMs now fetchDone : Int) (hstale : ¬ now - e.updatedAt < staleMs)
    (result : Except String FieldValue) (v : FieldValue) :
    initialState (some k) cache =
      { status := .success, data := e.data, error := none, isFetching := false } ∧
    (loadRun false (some k) staleMs now cache (initialState (some k) cache)
      result fetchDone).fetched = true ∧
    loadStart (initialState (some k) cache) =
      { status := .success, data := e.data, error := none, isFetching := true } ∧
    (loadRun false (some k) staleMs now cache (initialState (some k) cache)
      (.ok v) fetchDone).state = loadSuccess v := by
  have hc : initialCached (some k) cache = e.data := by
    simp [initialCached, hk, hentry]
  have hinit : initialState (some k) cache =
      { status := .success, data := e.data, error := none, isFetching := false } := by
    simp [initialState, hc, htruthy]
  have hmiss : freshHit (some k) staleMs now cache = none := by
    simp [freshHit, hk, hentry, hstale]
  refine ⟨hinit, ?_, ?_, ?_⟩
  · cases result <;> simp [loadRun, hmiss]
  · simp [hinit, loadStart, htruthy]
  · simp [loadRun, hmiss]

def demoEntry : CacheEntry :=
  { data := .obj [("total", .number 3)], updatedAt := 0 }

def demoCache : Cache :=
  fun k => if k = "posts:recent" then some demoEntry else none

theorem useFetch_stale_while_revalidate_witness :
    initialState (some "posts:recent") demoCache =
      { status := .success, data := .obj [("total", .number 3)], error := none,
        isFetching := false } ∧
    (loadRun false (some "posts:recent") 60000 60000 demoCache
      (initialState (some "posts:recent") demoCache)
      (.ok (.arr [])) 60001).state = loadSuccess (.arr []) := by
  have h := useFetch_stale_while_revalidate "posts:recent" (by decide)
    demoCache demoEntry rfl rfl 60000 60000 60001 (by decide)
    (.ok (.arr [])) (.arr [])
  exact ⟨h.1, h.2.2.2⟩

/-- C2: for every cache key k and staleness window staleMs (default
60000 ms), a non-forced load that finds an entry for k whose age
(now - updatedAt) is strictly less than staleMs returns the cached data
without invoking the fetcher; refetch always passes force = true and
therefore bypasses this freshness check and invokes the fetcher. -/
theorem load_fresh_cache_skips_fetch (k : String) (hk : (k != "") = true)
    (staleMs now fetchDone : Int) (cache : Cache) (e : CacheEntry)
    (hentry : cache k = some e) (hfresh : now - e.updatedAt < staleMs)
    (prev : FetchState) (result : Except String FieldValue) :
    DEFAULT_STALE_MS = 60000 ∧
    (loadRun false (some k) staleMs now cache prev result fetchDone).state =
      { status := .success, data := e.data, error := none, isFetching := false } ∧
    (loadRun false (some k) staleMs now cache prev result fetchDone).fetched = false ∧
    (∀ (ck : Option String) (sm n fd : Int) (c : Cache) (p : FetchState)
        (r : Except String FieldValue),
      (refetchRun ck sm n c p r fd).fetched = true) := by
  have hhit : freshHit (some k) staleMs now cache = some e := by
    simp [freshHit, hk, hentry, hfresh]
  refine ⟨rfl, ?_, ?_, ?_⟩
  · simp [loadRun, hhit, cacheHitState]
  · simp [loadRun, hhit]
  · intro ck sm n fd c p r
    cases r <;> simp [refetchRun, loadRun]

theorem load_fresh_cache_skips_fetch_witness :
    (loadRun false (some "posts:recent") 60000 59999 demoCache
      (initialState none demoCache) (.error "network down") 60001).state =
      { status := .success, data := .obj [("total", .number 3)], error := none,
        isFetching := false } ∧
    (loadRun false (some "posts:recent") 60000 59999 demoCache
      (initialState none demoCache) (.error "network down") 60001).fetched = false := by
  have h := load_fresh_cache_skips_fetch "posts:recent" (by decide)
    60000 59999 60001 demoCache demoEntry rfl (by decide)
    (initialState none demoCache) (.error "network down")
  exact ⟨h.2.1, h.2.2.1⟩

/-- C3: when the fetcher rejects, useFetch keeps status success with
the previous data and a null error whenever the state holds previously
fetched data, and otherwise moves to status error with null data and
the thrown message.  (Every fetcher in this repository resolves with an
object, an array, or null, so the data field is always null or truthy:
the hypothesis DataOk.) -/
theorem load_failure_policy (prev : FetchState) (msg : String)
    (h : DataOk prev.data) :
    (prev.data ≠ .null →
      loadFailure prev msg =
        { status := .success, data := prev.data, error := none, isFetching := false }) ∧
    (prev.data = .null →
      loadFailure prev msg =
        { status := .error, data := .null, error := some msg, isFetching := false }) := by
  rcases h with hnull | htr
  · refine ⟨fun hne => absurd hnull hne, fun _ => ?_⟩
    simp [loadFailure, hnull, FieldValue.truthy]
  · constructor
    · intro _
      simp [loadFailure, htr]
    · intro hnull
      rw [hnull] at htr
      simp [FieldValue.truthy] at htr
  
theorem load_failure_policy_witness :
    loadFailure
      { status := .success, data := .obj [("total", .number 3)], error := none,
        isFetching := true } "network down" =
      { status := .success, data := .obj [("total", .number 3)], error := none,
        isFetching := false } :=
  (load_failure_policy
      { status := .success, data := .obj [("total", .number 3)], error := none,
        isFetching := true } "network down" (Or.inr rfl)).1
    (fun hc => FieldValue.noConfusion hc)

/-! ## Claim about the ACF renderer -/

/-- C5: ACFValue dispatches recursively in this fixed order: null,
undefined, or "" renders nothing; an object with url and alt keys
renders as an image; an object with ID and post_title keys renders as a
relation link; an array renders nothing when empty, as a string list
when its first element is a string or number, and otherwise recursively
renders each row with ACFRenderer; a string matching an HTML-tag
pattern renders as raw HTML; a string starting with "http" renders as a
link; a boolean renders as a badge; any other object recurses as a
group; everything else renders as text. -/
theorem ACFValue_dispatch (fs : List (String × FieldValue)) (x : FieldValue)
    (rest : List FieldValue) (s : String) (b : Bool) (n : Int) :
    (ACFValue .null = .nothing) ∧
    (ACFValue .undefined = .nothing) ∧
    (ACFValue (.str "") = .nothing) ∧
    ((hasKey fs "url" && hasKey fs "alt") = true →
      ACFValue (.obj fs) =
        .image (getKey fs "url") (getKey fs "alt") (getKey fs "width") (getKey fs "height")) ∧
    ((hasKey fs "url" && hasKey fs "alt") = false →
      (hasKey fs "ID" && hasKey fs "post_title") = true →
      ACFValue (.obj fs) = .relationLink (getKey fs "permalink") (getKey fs "post_title")) ∧
    (ACFValue (.arr []) = .nothing) ∧
    (isStrOrNum x = true →
      ACFValue (.arr (x :: rest)) = .stringList ((x :: rest).map toDisplayString)) ∧
    (isStrOrNum x = false →
      ACFValue (.arr (x :: rest)) = .rows ((x :: rest).map (fun r => ACFRenderer (entriesOf r)))) ∧
    (s ≠ "" → containsHtmlTag s = true → ACFValue (.str s) = .rawHtml s) ∧
    (s ≠ "" → containsHtmlTag s = false → strStartsWith s "http" = true →
      ACFValue (.str s) = .link s) ∧
    (ACFValue (.boolean b) = .badge b) ∧
    ((hasKey fs "url" && hasKey fs "alt") = false →
      (hasKey fs "ID" && hasKey fs "post_title") = false →
      ACFValue (.obj fs) = ACFRenderer fs) ∧
    (ACFValue (.number n) = .text (toDisplayString (.number n))) ∧
    (s ≠ "" → containsHtmlTag s = false → strStartsWith s "http" = false →
      ACFValue (.str s) = .text s) := by
  refine ⟨?_, ?_, ?_, ?_, ?_, ?_, ?_, ?_, ?_, ?_, ?_, ?_, ?_, ?_⟩
  · rw [ACFValue]
  · rw [ACFValue]
  · rw [ACFValue]; simp
  · intro h; rw [ACFValue]; simp [h]
  · intro h1 h2; rw [ACFValue]; simp [h1, h2]
  · rw [ACFValue]
  · intro h; rw [ACFValue]; simp [h]
  · intro h; exact ACFValue_arr_rows x rest h
  · intro h1 h2; rw [ACFValue]; simp [h1, h2]
  · intro h1 h2 h3; rw [ACFValue]; simp [h1, h2, h3]
  · rw [ACFValue]
  · intro h1 h2; rw [ACFValue]; simp [h1, h2]
  · rw [ACFValue]
  · intro h1 h2 h3; rw [ACFValue]; simp [h1, h2, h3]

theorem ACFValue_dispatch_witness :
    ACFValue (.str "https://example.com") = .link "https://example.com" :=
  (ACFValue_dispatch [] .null [] "https://example.com" true 0
    ).2.2.2.2.2.2.2.2.2.1 (by decide) (by rfl) (by rfl)

/-! ## Claims about the REST client -/

theorem hasParamKey_append (q1 q2 : List (String × String)) (k : String) :
    hasParamKey (q1 ++ q2) k = (hasParamKey q1 k || hasParamKey q2 k) := by
  simp [hasParamKey]

theorem hasParamKey_entryIf (b : Bool) (key val k : String) :
    hasParamKey (entryIf b key val) k = (b && (key == k)) := by
  cases b <;> simp [entryIf, hasParamKey]

theorem mem_entryIf (kv : String × String) (b : Bool) (key val : String) :
    (kv ∈ entryIf b key val) ↔ (b = true ∧ kv = (key, val)) := by
  cases b <;> simp [entryIf]

/-- C6: buildParams includes a key exactly when the corresponding field
is set and truthy (so page = 0, perPage = 0, empty search, and empty
categories/tags arrays are all omitted), joins categories and tags with
commas, and sets "_embed" to "1" if and only if the embed field is not
exactly false (including when embed is undefined). -/
theorem buildParams_spec (p : QueryParams) :
    (hasParamKey (buildParams p) "page" = numFieldTruthy p.page) ∧
    (hasParamKey (buildParams p) "per_page" = numFieldTruthy p.perPage) ∧
    (hasParamKey (buildParams p) "search" = strFieldTruthy p.search) ∧
    (hasParamKey (buildParams p) "categories" = listFieldTruthy p.categories) ∧
    (hasParamKey (buildParams p) "tags" = listFieldTruthy p.tags) ∧
    (hasParamKey (buildParams p) "slug" = strFieldTruthy p.slug) ∧
    (hasParamKey (buildParams p) "orderby" = strFieldTruthy p.orderby) ∧
    (hasParamKey (buildParams p) "order" = strFieldTruthy p.order) ∧
    (hasParamKey (buildParams p) "status" = strFieldTruthy p.status) ∧
    (∀ l, p.categories = some l → l ≠ [] →
      ("categories", joinComma l) ∈ buildParams p) ∧
    (∀ l, p.tags = some l → l ≠ [] → ("tags", joinComma l) ∈ buildParams p) ∧
    ((("_embed", "1") ∈ buildParams p) ↔ p.embed ≠ some false) := by
  refine ⟨?_, ?_, ?_, ?_, ?_, ?_, ?_, ?_, ?_, ?_, ?_, ?_⟩
  · simp [buildParams, hasParamKey_append, hasParamKey_entryIf]
  · simp [buildParams, hasParamKey_append, hasParamKey_entryIf]
  · simp [buildParams, hasParamKey_append, hasParamKey_entryIf]
  · simp [buildParams, hasParamKey_append, hasParamKey_entryIf]
  · simp [buildParams, hasParamKey_append, hasParamKey_entryIf]
  · simp [buildParams, hasParamKey_append, hasParamKey_entryIf]
  · simp [buildParams, hasParamKey_append, hasParamKey_entryIf]
  · simp [buildParams, hasParamKey_append, hasParamKey_entryIf]
  · simp [buildParams, hasParamKey_append, hasParamKey_entryIf]
  · intro l h1 h2
    simp [buildParams, List.mem_append, mem_entryIf, listFieldTruthy,
      optListJoin, h1, h2]
  · intro l h1 h2
    simp [buildParams, List.mem_append, mem_entryIf, listFieldTruthy,
      optListJoin, h1, h2]
  · simp [buildParams, List.mem_append, mem_entryIf]

theorem buildParams_spec_witness :
    hasParamKey (buildParams { page := some 0, search := some "react" })
      "page" = false ∧
    hasParamKey (buildParams { page := some 0, search := some "react" })
      "search" = true ∧
    ("tags", joinComma [4, 7]) ∈
      buildParams { tags := some [4, 7] } ∧
    (("_embed", "1") ∈ buildParams { embed := some false } ↔
      (some false : Option Bool) ≠ some false) := by
  refine ⟨?_, ?_, ?_, ?_⟩
  · exact (buildParams_spec { page := some 0, search := some "react" }).1
  · exact (buildParams_spec { page := some 0, search := some "react" }).2.2.1
  · exact (buildParams_spec { tags := some [4, 7] }).2.2.2.2.2.2.2.2.2.2.1
      [4, 7] rfl (by decide)
  · exact (buildParams_spec { embed := some false }).2.2.2.2.2.2.2.2.2.2.2

theorem isNullish_cases (v : FieldValue) (h : v.isNullish = true) :
    v = .null ∨ v = .undefined := by
  cases v <;> simp_all [FieldValue.isNullish]

theorem jsGet_null (k : String) : jsGet .null k = .undefined := rfl

theorem jsGet_undefined (k : String) : jsGet .undefined k = .undefined := rfl

/-- C7: parsePost and parsePage are total on every raw JSON object:
missing title, excerpt, or content fall back to "", a missing acf
object falls back to {}, parseImage returns null when no embedded
featured media is present, and parseTerms returns [] when the taxonomy
group is absent, so parsing never fails on absent fields.  (Totality is
by construction; the conjuncts state the fallbacks, and the last two
evaluate both parsers on an entirely empty object.) -/
theorem parse_total_fallbacks (raw : FieldValue) :
    ((jsGet raw "title").isNullish = true → (parsePost raw).title = .str "") ∧
    ((jsGet raw "excerpt").isNullish = true → (parsePost raw).excerpt = .str "") ∧
    ((jsGet raw "content").isNullish = true → (parsePost raw).content = .str "") ∧
    ((jsGet raw "acf").isNullish = true → (parsePost raw).acf = .obj []) ∧
    ((jsGet (jsGet raw "_embedded") "wp:featuredmedia").isNullish = true →
      parseImage raw = none) ∧
    (∀ tax, (jsGet (jsGet raw "_embedded") "wp:term").isNullish = true →
      parseTerms raw tax = []) ∧
    ((jsGet raw "title").isNullish = true → (parsePage raw).title = .str "") ∧
    ((jsGet raw "acf").isNullish = true → (parsePage raw).acf = .obj []) ∧
    (parsePost (.obj []) =
      { id := .undefined, slug := .undefined, title := .str "",
        excerpt := .str "", content := .str "", date := .undefined,
        modified := .undefined, featuredImage := none, categories := [],
        tags := [], acf := .obj [] }) ∧
    (parsePage (.obj []) =
      { id := .undefined, slug := .undefined, title := .str "",
        content := .str "", acf := .obj [] }) := by
  refine ⟨?_, ?_, ?_, ?_, ?_, ?_, ?_, ?_, ?_, ?_⟩
  · intro h
    rcases isNullish_cases _ h with h' | h' <;>
      simp [parsePost, h', jsGet_null, jsGet_undefined, orDefault,
        FieldValue.isNullish]
  · intro h
    rcases isNullish_cases _ h with h' | h' <;>
      simp [parsePost, h', jsGet_null, jsGet_undefined, orDefault,
        FieldValue.isNullish]
  · intro h
    rcases isNullish_cases _ h with h' | h' <;>
      simp [parsePost, h', jsGet_null, jsGet_undefined, orDefault,
        FieldValue.isNullish]
  · intro h
    rcases isNullish_cases _ h with h' | h' <;>
      simp [parsePost, h', orDefault, FieldValue.isNullish]
  · intro h
    rcases isNullish_cases _ h with h' | h' <;>
      simp [parseImage, h', jsIndex0, orDefault, FieldValue.isNullish,
        FieldValue.truthy]
  · intro tax h
    rcases isNullish_cases _ h with h' | h' <;>
      simp [parseTerms, h', orDefault, FieldValue.isNullish, jsArrElems]
  · intro h
    rcases isNullish_cases _ h with h' | h' <;>
      simp [parsePage, h', jsGet_null, jsGet_undefined, orDefault,
        FieldValue.isNullish]
  · intro h
    rcases isNullish_cases _ h with h' | h' <;>
      simp [parsePage, h', orDefault, FieldValue.isNullish]
  · rfl
  · rfl

theorem parse_total_fallbacks_witness :
    (parsePost (.obj [("id", .number 7)])).title = .str "" ∧
    parseImage (.obj [("id", .number 7)]) = none ∧
    parseTerms (.obj [("id", .number 7)]) "category" = [] :=
  ⟨(parse_total_fallbacks (.obj [("id", .number 7)])).1 rfl,
   (parse_total_fallbacks (.obj [("id", .number 7)])).2.2.2.2.1 rfl,
   (parse_total_fallbacks (.obj [("id", .number 7)])).2.2.2.2.2.1 "category" rfl⟩

/-- C8: for every slug, getPostBySlug queries getPosts with that slug
and perPage = 1 and returns the first returned post, or null when the
result list is empty; an empty result is never reported as an error (an
exception is thrown only when the HTTP response itself is not ok).
getPageBySlug behaves identically for pages. -/
theorem getBySlug_first_or_null (slug : String)
    (respond : List (String × String) → HttpResponse) :
    ((respond (buildParams { slug := some slug, perPage := some 1 })).ok = true →
      getPostBySlug slug respond =
        .ok ((jsArrElems (respond (buildParams
          { slug := some slug, perPage := some 1 })).body).map parsePost).head?) ∧
    ((respond (buildParams { slug := some slug, perPage := some 1 })).ok = true →
      jsArrElems (respond (buildParams
        { slug := some slug, perPage := some 1 })).body = [] →
      getPostBySlug slug respond = .ok none) ∧
    ((∃ e, getPostBySlug slug respond = .error e) ↔
      (respond (buildParams { slug := some slug, perPage := some 1 })).ok = false) ∧
    ((respond (buildParams { slug := some slug, perPage := some 1 })).ok = true →
      getPageBySlug slug respond =
        .ok ((jsArrElems (respond (buildParams
          { slug := some slug, perPage := some 1 })).body).map parsePage).head?) ∧
    ((respond (buildParams { slug := some slug, perPage := some 1 })).ok = true →
      jsArrElems (respond (buildParams
        { slug := some slug, perPage := some 1 })).body = [] →
      getPageBySlug slug respond = .ok none) ∧
    ((∃ e, getPageBySlug slug respond = .error e) ↔
      (respond (buildParams { slug := some slug, perPage := some 1 })).ok = false) := by
  refine ⟨?_, ?_, ?_, ?_, ?_, ?_⟩
  · intro hok
    simp [getPostBySlug, getPosts, hok]
  · intro hok hempty
    simp [getPostBySlug, getPosts, hok, hempty]
  · constructor
    · rintro ⟨e, he⟩
      cases hok : (respond (buildParams { slug := some slug, perPage := some 1 })).ok
      · rfl
      · simp [getPostBySlug, getPosts, hok] at he
    · intro hok
      refine ⟨"WP API " ++ toString (respond (buildParams
        { slug := some slug, perPage := some 1 })).status, ?_⟩
      simp [getPostBySlug, getPosts, hok]
  · intro hok
    simp [getPageBySlug, getPages, hok]
  · intro hok hempty
    simp [getPageBySlug, getPages, hok, hempty]
  · constructor
    · rintro ⟨e, he⟩
      cases hok : (respond (buildParams { slug := some slug, perPage := some 1 })).ok
      · rfl
      · simp [getPageBySlug, getPages, hok] at he
    · intro hok
      refine ⟨"WP API error " ++ toString (respond (buildParams
        { slug := some slug, perPage := some 1 })).status, ?_⟩
      simp [getPageBySlug, getPages, hok]

def okEmptyRespond : List (String × String) → HttpResponse :=
  fun _ =>
    { ok := true, status := 200, totalHeader := none,
      totalPagesHeader := none, body := .arr [] }

theorem getBySlug_first_or_null_witness :
    getPostBySlug "hello" okEmptyRespond = .ok none ∧
    getPageBySlug "hello" okEmptyRespond = .ok none :=
  ⟨(getBySlug_first_or_null "hello" okEmptyRespond).2.1 rfl rfl,
   (getBySlug_first_or_null "hello" okEmptyRespond).2.2.2.2.1 rfl rfl⟩

/-! ## Claim about the router -/

theorem isPrefixOf_append_self (l t : List Char) : l.isPrefixOf (l ++ t) = true := by
  induction l with
  | nil => simp [List.isPrefixOf]
  | cons c cs ih => simp [List.isPrefixOf, ih]

theorem removeFirstChars_append_self (pat t : List Char) (hne : pat ≠ []) :
    removeFirstChars pat (pat ++ t) = t := by
  cases pat with
  | nil => exact absurd rfl hne
  | cons c cs =>
    have hpre : (c :: cs).isPrefixOf ((c :: cs) ++ t) = true := isPrefixOf_append_self _ _
    rw [List.cons_append] at hpre ⊢
    rw [removeFirstChars]
    simp only [hpre, if_true]
    rw [← List.cons_append, List.drop_left]

theorem removeFirst_append_self (pre rest : String) (hne : pre.data ≠ []) :
    removeFirst (pre ++ rest) pre = rest := by
  unfold removeFirst
  have h : (pre ++ rest).data = pre.data ++ rest.data := by simp
  rw [h, removeFirstChars_append_self _ _ hne]

/-- C9: the hash router's dispatch is total and mutually exclusive:
"#/" and "" render the home page, "#/blog" renders the blog page, any
hash with prefix "#/post/" renders the single-post view with the
remainder as slug, any hash with prefix "#/page/" renders the page view
with the remainder as slug, and every other hash renders the "Page non
trouvée" error banner, so every possible hash string maps to exactly
one view. -/
theorem router_dispatch (h : String) :
    ((h = "#/" ∨ h = "") → routeView h = .home) ∧
    (h = "#/blog" → routeView h = .blog) ∧
    (∀ rest : String, routeView ("#/post/" ++ rest) = .post rest) ∧
    (∀ rest : String, routeView ("#/page/" ++ rest) = .page rest) ∧
    (h ≠ "#/" → h ≠ "" → h ≠ "#/blog" → strStartsWith h "#/post/" = false →
      strStartsWith h "#/page/" = false →
      routeView h = .errorBanner "Page non trouvée") := by
  refine ⟨?_, ?_, ?_, ?_, ?_⟩
  · rintro (rfl | rfl) <;> rfl
  · rintro rfl; rfl
  · intro rest
    have h1 : (("#/post/" ++ rest) == "#/") = false := by
      simp only [beq_eq_false_iff_ne]
      intro heq
      have hd := congrArg String.data heq
      simp at hd
    have h2 : (("#/post/" ++ rest) == "") = false := by
      simp only [beq_eq_false_iff_ne]
      intro heq
      have hd := congrArg String.data heq
      simp at hd
    have h3 : (("#/post/" ++ rest) == "#/blog") = false := by
      simp only [beq_eq_false_iff_ne]
      intro heq
      have hd := congrArg String.data heq
      simp at hd
    have h4 : strStartsWith ("#/post/" ++ rest) "#/post/" = true := by
      unfold strStartsWith
      have hd : ("#/post/" ++ rest).data = "#/post/".data ++ rest.data := by simp
      rw [hd]
      exact isPrefixOf_append_self _ _
    have h5 : removeFirst ("#/post/" ++ rest) "#/post/" = rest :=
      removeFirst_append_self "#/post/" rest (by decide)
    simp [routeView, h1, h2, h3, h4, h5]
  · intro rest
    have h1 : (("#/page/" ++ rest) == "#/") = false := by
      simp only [beq_eq_false_iff_ne]
      intro heq
      have hd := congrArg String.data heq
      simp at hd
    have h2 : (("#/page/" ++ rest) == "") = false := by
      simp only [beq_eq_false_iff_ne]
      intro heq
      have hd := congrArg String.data heq
      simp at hd
    have h3 : (("#/page/" ++ rest) == "#/blog") = false := by
      simp only [beq_eq_false_iff_ne]
      intro heq
      have hd := congrArg String.data heq
      simp at hd
    have h4 : strStartsWith ("#/page/" ++ rest) "#/post/" = false := by
      unfold strStartsWith
      have hd : ("#/page/" ++ rest).data = "#/page/".data ++ rest.data := by simp
      rw [hd]
      simp [List.isPrefixOf]
    have h5 : strStartsWith ("#/page/" ++ rest) "#/page/" = true := by
      unfold strStartsWith
      have hd : ("#/page/" ++ rest).data = "#/page/".data ++ rest.data := by simp
      rw [hd]
      exact isPrefixOf_append_self _ _
    have h6 : removeFirst ("#/page/" ++ rest) "#/page/" = rest :=
      removeFirst_append_self "#/page/" rest (by decide)
    simp [routeView, h1, h2, h3, h4, h5, h6]
  · intro h1 h2 h3 h4 h5
    have b1 : (h == "#/") = false := by simp [beq_eq_false_iff_ne, h1]
    have b2 : (h == "") = false := by simp [beq_eq_false_iff_ne, h2]
    have b3 : (h == "#/blog") = false := by simp [beq_eq_false_iff_ne, h3]
    simp [routeView, b1, b2, b3, h4, h5]

theorem router_dispatch_witness :
    routeView "#/post/hello-world" = .post "hello-world" ∧
    routeView "#/unknown" = .errorBanner "Page non trouvée" := by
  constructor
  · have h := (router_dispatch "").2.2.1 "hello-world"
    simpa using h
  · exact (router_dispatch "#/unknown").2.2.2.2 (by decide) (by decide)
      (by decide) (by rfl) (by rfl)

/-! ## Claim about Pagination -/

/-- C10: Pagination renders nothing whenever totalPages <= 1; otherwise
it renders one button per page from 1 to totalPages, the previous
button is disabled exactly when page = 1, and the next button is
disabled exactly when page = totalPages. -/
theorem Pagination_spec (page totalPages : Int) :
    (totalPages ≤ 1 → Pagination page totalPages = none) ∧
    (1 < totalPages → ∃ v, Pagination page totalPages = some v ∧
      (∀ q : Int, q ∈ v.pages ↔ 1 ≤ q ∧ q ≤ totalPages) ∧
      v.pages.length = totalPages.toNat ∧
      v.pages.Nodup ∧
      (v.prevDisabled = true ↔ page = 1) ∧
      (v.nextDisabled = true ↔ page = totalPages)) := by
  constructor
  · intro hle
    simp [Pagination, hle]
  · intro hgt
    have hno : ¬ totalPages ≤ 1 := by omega
    refine ⟨{ pages := (List.range totalPages.toNat).map (fun (i : Nat) => (i : Int) + 1),
              prevDisabled := page == 1, nextDisabled := page == totalPages },
        ?_, ?_, ?_, ?_, ?_, ?_⟩
    · simp [Pagination, hno]
    · intro q
      simp only [List.mem_map, List.mem_range]
      constructor
      · rintro ⟨i, hi, rfl⟩
        omega
      · rintro ⟨hq1, hq2⟩
        exact ⟨(q - 1).toNat, by omega, by omega⟩
    · simp only [List.length_map, List.length_range]
    · apply List.Nodup.map
      · intro a b hab
        simp only at hab
        omega
      · exact List.nodup_range _
    · simp
    · simp

theorem Pagination_spec_witness :
    Pagination 5 1 = none ∧
    (∃ v, Pagination 1 3 = some v ∧
      (∀ q : Int, q ∈ v.pages ↔ 1 ≤ q ∧ q ≤ 3) ∧
      v.pages.length = (3 : Int).toNat ∧
      v.pages.Nodup ∧
      (v.prevDisabled = true ↔ (1 : Int) = 1) ∧
      (v.nextDisabled = true ↔ (1 : Int) = 3)) :=
  ⟨(Pagination_spec 5 1).1 (by decide), (Pagination_spec 1 3).2 (by decide)⟩
